import Mathlib

/-!
Verification of the politeia encrypted key-value store and record cache.

A shallow embedding of the storage core of the politeia repository:

* the encrypted key-value store (`politeiawww/database`) with its two
  backends, the embedded leveldb engine and the transactional
  cockroachdb engine, together with the version-marker bootstrap
  protocol run by `Open`;
* the JSON envelope codec (`EncodeVersion` / `DecodeVersion` /
  `DecodeUser`) with its record-type and record-version checks;
* the encryption-key file bootstrap (`ResolveEncryptionKey`);
* the versioned record cache (`politeiad/cache`), its SQL conversion
  helpers (`convertRecordFromCache` / `convertRecordToCache`), and a
  model of the cache contract for the inventory and history claims.

Machine integers (`uint32`, `int64`) are modelled as `Nat` / `Int`; no
arithmetic in the modelled code can overflow.  Byte slices are
`List Nat`.  The external `sbox` authenticated-encryption library is
modelled symbolically by its contract: a sealed payload remembers the
version, the key and the plaintext, and opening fails unless the same
key is supplied (fail-closed authenticated encryption).
-/

/-- Association-list lookup, modelling a key-value table keyed by
strings (leveldb keyspace, the `key_value` SQL table, or a directory
of files). -/
def getKV {α : Type} (k : String) : List (String × α) → Option α
  | [] => none
  | (k', v) :: rest => if k' = k then some v else getKV k rest

/-- Association-list update: replaces the binding for `k` if present,
otherwise appends a fresh binding.  Models a keyed write that replaces
any existing value. -/
def setKV {α : Type} (k : String) (v : α) : List (String × α) → List (String × α)
  | [] => [(k, v)]
  | (k', v') :: rest => if k' = k then (k, v) :: rest else (k', v') :: setKV k v rest

/-- A 32-byte symmetric key (`[32]byte` in the source). -/
abbrev SecretKey : Type := { l : List Nat // l.length = 32 }

/-- A convenient all-zero key for concrete witnesses. -/
def zeroKey : SecretKey := ⟨List.replicate 32 0, by simp⟩

/-- A second key, distinct from `zeroKey`, for wrong-key scenarios. -/
def oneKey : SecretKey := ⟨1 :: List.replicate 31 0, by simp⟩

/-- Errors of the `database` package.  Each constructor corresponds to
one of the `errors.New` sentinel values of `database.go` (plus
`ErrWrongRecordVersion` / `ErrWrongRecordType` referenced by
`encoding.go`), or to an error produced by a collaborator: `errDecrypt`
stands for the authentication failure returned by `sbox.Decrypt`, and
`errJson` for a `json.Unmarshal` failure.  Distinct constructors model
distinct sentinel errors. -/
inductive DBError : Type
  | errNotFound
  | errUserExists
  | errInvalidEmail
  | errShutdown
  | errWrongVersion
  | errLoadingEncryptionKey
  | errWrongEncryptionKey
  | errWrongRecordVersion
  | errWrongRecordType
  | errDecrypt
  | errJson
  deriving DecidableEq

/-- From the source: `database.DatabaseVersion`: current schema version (uint32 1). -/
def DatabaseVersion : Nat := 1

/-- From the source: `database.DatabaseVersionKey`: reserved key of the version marker. -/
def DatabaseVersionKey : String := "userversion"

/-- From the source: `database.DefaultEncryptionKeyFilename`. -/
def DefaultEncryptionKeyFilename : String := "dbencryptionkey.json"

/-- From the source: `database.RecordTypeT` is a Go `int`. -/
def RecordTypeInvalid : Int := 0

def RecordTypeUser : Int := 1

def RecordTypeVersion : Int := 2

/-- From the source: `database.EncryptionKey`: a 32-byte key plus creation time. -/
structure EncryptionKey where
  Key : SecretKey
  Time : Int := 0
  deriving DecidableEq

/-- From the source: `database.Version`: the version-marker record with its JSON
envelope fields. -/
structure DBVersion where
  RecordType : Int := 0
  RecordVersion : Nat := 0
  Version : Nat := 0
  Time : Int := 0
  deriving DecidableEq

/-- A byte payload as it travels through the store.  `bytes` is an
uninterpreted byte slice; `versionPayload` is the JSON encoding of a
`database.Version` record; `sealed` is a ciphertext produced by
`sbox.Encrypt`, remembering the envelope version, the key used and the
plaintext (the symbolic model of authenticated encryption). -/
inductive Blob : Type
  | bytes (bs : List Nat)
  | versionPayload (v : DBVersion)
  | sealed (version : Nat) (key : SecretKey) (inner : Blob)
  deriving DecidableEq

instance {ε α : Type} [DecidableEq ε] [DecidableEq α] : DecidableEq (Except ε α) := fun a b =>
  match a, b with
  | .ok x, .ok y => decidable_of_iff (x = y) (by simp)
  | .error e, .error f => decidable_of_iff (e = f) (by simp)
  | .ok _, .error _ => isFalse (by simp)
  | .error _, .ok _ => isFalse (by simp)

/-- From the source: `database.Encrypt` (a thin wrapper over `sbox.Encrypt`): seals the
payload, embedding the version in the envelope.  The source returns an
error only on random-generator failure, which is environmental and not
modelled. -/
def Encrypt (version : Nat) (key : SecretKey) (data : Blob) : Blob :=
  .sealed version key data

/-- From the source: `database.Decrypt` (a thin wrapper over `sbox.Decrypt`): opens a
sealed payload, returning the plaintext and the embedded version.
Fails closed with the sbox authentication error when the payload is
not a ciphertext produced under the same key. -/
def Decrypt (key : SecretKey) (data : Blob) : Except DBError (Blob × Nat) :=
  match data with
  | .sealed version k inner =>
    if k = key then .ok (inner, version) else .error .errDecrypt
  | _ => .error .errDecrypt

/-- From the source: `database.EncodeVersion` (encoding.go): stamps the record type and
record version into the envelope and marshals it.  `json.Marshal`
cannot fail on this value, so the model is total. -/
def EncodeVersion (version : DBVersion) : Blob :=
  .versionPayload { version with
    RecordType := RecordTypeVersion
    RecordVersion := DatabaseVersion }

/-- From the source: `database.verifyRecordVersion` (encoding.go). -/
def verifyRecordVersion (recordVersion dbVersion : Nat) : Except DBError Unit :=
  if recordVersion ≠ dbVersion then .error .errWrongRecordVersion else .ok ()

/-- From the source: `database.verifyRecordType` (encoding.go). -/
def verifyRecordType (recordType expectedType : Int) : Except DBError Unit :=
  if recordType ≠ expectedType then .error .errWrongRecordType else .ok ()

/-- From the source: `database.DecodeVersion` (encoding.go): the checks performed after
`json.Unmarshal` succeeds.  The input is the already-unmarshalled
`Version` value; a malformed byte slice fails earlier inside
`json.Unmarshal` and is outside this model. -/
def DecodeVersion (version : DBVersion) : Except DBError DBVersion :=
  match verifyRecordVersion version.RecordVersion DatabaseVersion with
  | .error e => .error e
  | .ok _ =>
    match verifyRecordType version.RecordType RecordTypeVersion with
    | .error e => .error e
    | .ok _ => .ok version

/-- From the source: `database.Identity`: an ed25519 public key with activation times. -/
structure Identity where
  Key : List Nat := []
  Activated : Int := 0
  Deactivated : Int := 0
  deriving DecidableEq

/-- From the source: `database.ProposalPaywall`. -/
structure ProposalPaywall where
  ID : Nat := 0
  CreditPrice : Nat := 0
  Address : String := ""
  TxNotBefore : Int := 0
  PollExpiry : Int := 0
  TxID : String := ""
  TxAmount : Nat := 0
  NumCredits : Nat := 0
  deriving DecidableEq

/-- From the source: `database.ProposalCredit`. -/
structure ProposalCredit where
  PaywallID : Nat := 0
  Price : Nat := 0
  DatePurchased : Int := 0
  TxID : String := ""
  CensorshipToken : String := ""
  deriving DecidableEq

/-- From the source: `database.User`: the account record persisted by the key-value
store, with its JSON envelope fields `RecordType` / `RecordVersion`.
`uuid.UUID` is modelled as a string, byte slices as `List Nat`, and
the access-time map as an association list. -/
structure User where
  RecordType : Int := 0
  RecordVersion : Nat := 0
  ID : String := ""
  Email : String := ""
  Username : String := ""
  HashedPassword : List Nat := []
  Admin : Bool := false
  PaywallAddressIndex : Nat := 0
  NewUserPaywallAddress : String := ""
  NewUserPaywallAmount : Nat := 0
  NewUserPaywallTx : String := ""
  NewUserPaywallTxNotBefore : Int := 0
  NewUserPaywallPollExpiry : Int := 0
  NewUserVerificationToken : List Nat := []
  NewUserVerificationExpiry : Int := 0
  ResendNewUserVerificationExpiry : Int := 0
  UpdateKeyVerificationToken : List Nat := []
  UpdateKeyVerificationExpiry : Int := 0
  ResetPasswordVerificationToken : List Nat := []
  ResetPasswordVerificationExpiry : Int := 0
  LastLoginTime : Int := 0
  FailedLoginAttempts : Nat := 0
  Deactivated : Bool := false
  EmailNotifications : Nat := 0
  ProposalCommentsAccessTimes : List (String × Int) := []
  Identities : List Identity := []
  ProposalPaywalls : List ProposalPaywall := []
  UnspentProposalCredits : List ProposalCredit := []
  SpentProposalCredits : List ProposalCredit := []
  deriving DecidableEq

/-- From the source: `database.DecodeUser` (encoding.go): the envelope checks performed
after `json.Unmarshal` succeeds, in source order — record version
first, then record type. -/
def DecodeUser (u : User) : Except DBError User :=
  match verifyRecordVersion u.RecordVersion DatabaseVersion with
  | .error e => .error e
  | .ok _ =>
    match verifyRecordType u.RecordType RecordTypeUser with
    | .error e => .error e
    | .ok _ => .ok u

/-- The leveldb backend context (`leveldb` struct): shutdown flag,
keyspace contents and the loaded encryption key.  The `root` path and
the on-disk file handle are environmental and not modelled; the model
starts from an established backend connection. -/
structure Leveldb where
  shutdown : Bool := false
  userdb : List (String × Blob) := []
  encryptionKey : EncryptionKey
  deriving DecidableEq

/-- From the source: `leveldb.Put`: checks the shutdown flag under the read lock, seals
the payload with the current schema version, and writes it, replacing
any existing value for the key. -/
def Leveldb.Put (l : Leveldb) (key : String) (payload : Blob) :
    Except DBError Leveldb :=
  if l.shutdown then .error .errShutdown
  else
    .ok { l with
      userdb := setKV key (Encrypt DatabaseVersion l.encryptionKey.Key payload) l.userdb }

/-- From the source: `leveldb.Get`: checks the shutdown flag, maps the backend
not-found error to `database.ErrNotFound`, and otherwise opens the
sealed payload, propagating a decryption failure unchanged. -/
def Leveldb.Get (l : Leveldb) (key : String) : Except DBError Blob :=
  if l.shutdown then .error .errShutdown
  else
    match getKV key l.userdb with
    | none => .error .errNotFound
    | some packed =>
      match Decrypt l.encryptionKey.Key packed with
      | .error e => .error e
      | .ok (payload, _) => .ok payload

/-- From the source: `leveldb.Has`: existence check without decrypting. -/
def Leveldb.Has (l : Leveldb) (key : String) : Except DBError Bool :=
  if l.shutdown then .error .errShutdown
  else .ok (getKV key l.userdb).isSome

/-- Decrypts every value of the keyspace in iteration order, stopping
at the first failure — the shared loop body of `leveldb.GetAll` and
`leveldb.GetSnapshot`.  The callback of `GetAll` is modelled by
returning the list of `(key, plaintext)` pairs it would receive. -/
def decryptAllKV (key : SecretKey) :
    List (String × Blob) → Except DBError (List (String × Blob))
  | [] => .ok []
  | (k, v) :: rest =>
    match Decrypt key v with
    | .error e => .error e
    | .ok (dec, _) =>
      match decryptAllKV key rest with
      | .error e => .error e
      | .ok tl => .ok ((k, dec) :: tl)

/-- From the source: `leveldb.GetAll`: iterates the whole keyspace, decrypting each
value and passing it to the callback. -/
def Leveldb.GetAll (l : Leveldb) : Except DBError (List (String × Blob)) :=
  if l.shutdown then .error .errShutdown
  else decryptAllKV l.encryptionKey.Key l.userdb

/-- From the source: `database.Snapshot`: a point-in-time decrypted copy of the
keyspace plus store metadata. -/
structure StoreSnapshot where
  Time : Int := 0
  Version : Nat := 0
  Snapshot : List (String × Blob) := []
  deriving DecidableEq

/-- From the source: `leveldb.GetSnapshot`: checks the shutdown flag and produces a
fully decrypted copy of the keyspace with the current time and schema
version.  `time.Now` is passed in as `now`. -/
def Leveldb.GetSnapshot (l : Leveldb) (now : Int) :
    Except DBError StoreSnapshot :=
  if l.shutdown then .error .errShutdown
  else
    match decryptAllKV l.encryptionKey.Key l.userdb with
    | .error e => .error e
    | .ok pairs => .ok { Time := now, Version := DatabaseVersion, Snapshot := pairs }

/-- From the source: `leveldb.Close`: takes the exclusive lock, sets the shutdown flag
and releases the backend handle.  The handle release is environmental;
its error is not modelled. -/
def Leveldb.Close (l : Leveldb) : Leveldb :=
  { l with shutdown := true }

/-- From the source: `leveldb.Open` (the bootstrap part, after `ldb.OpenFile`
succeeds): reads the version marker through `Get`.  If it is absent, a
fresh marker is encoded, sealed once explicitly and once more inside
`Put`, and written.  Otherwise the payload returned by `Get` is opened
a second time: a failure is reported as `ErrWrongEncryptionKey`, an
embedded version different from `DatabaseVersion` as
`ErrWrongVersion`; the trailing `return err` returns the (nil) error
of the initial `Get`.  `time.Now` is passed in as `now`. -/
def Leveldb.Open (l : Leveldb) (now : Int) : Except DBError Leveldb :=
  let res := l.Get DatabaseVersionKey
  if res = .error .errNotFound then
    let payload := EncodeVersion { Version := DatabaseVersion, Time := now }
    let packed := Encrypt DatabaseVersion l.encryptionKey.Key payload
    l.Put DatabaseVersionKey packed
  else
    let payload := match res with | .ok p => p | .error _ => Blob.bytes []
    match Decrypt l.encryptionKey.Key payload with
    | .error _ => .error .errWrongEncryptionKey
    | .ok (_, version) =>
      if version ≠ DatabaseVersion then .error .errWrongVersion
      else match res with
        | .ok _ => .ok l
        | .error e => .error e

/-- The cockroachdb backend context (`cockroachdb` struct): shutdown
flag, the `key_value` table contents and the loaded encryption key.
The connection address and certificates are environmental. -/
structure Cockroachdb where
  shutdown : Bool := false
  keyValue : List (String × Blob) := []
  encryptionKey : EncryptionKey
  deriving DecidableEq

/-- From the source: `cockroachdb.Put`: checks the shutdown flag, seals the payload,
and inside one transaction finds the row for the key, creating it if
absent and updating it otherwise. -/
def Cockroachdb.Put (c : Cockroachdb) (key : String) (payload : Blob) :
    Except DBError Cockroachdb :=
  if c.shutdown then .error .errShutdown
  else
    .ok { c with
      keyValue := setKV key (Encrypt DatabaseVersion c.encryptionKey.Key payload) c.keyValue }

/-- From the source: `cockroachdb.Get`: checks the shutdown flag, maps the gorm
record-not-found error to `database.ErrNotFound`, and otherwise opens
the sealed payload, propagating a decryption failure unchanged. -/
def Cockroachdb.Get (c : Cockroachdb) (key : String) : Except DBError Blob :=
  if c.shutdown then .error .errShutdown
  else
    match getKV key c.keyValue with
    | none => .error .errNotFound
    | some packed =>
      match Decrypt c.encryptionKey.Key packed with
      | .error e => .error e
      | .ok (payload, _) => .ok payload

/-- From the source: `cockroachdb.Has`. -/
def Cockroachdb.Has (c : Cockroachdb) (key : String) : Except DBError Bool :=
  if c.shutdown then .error .errShutdown
  else .ok (getKV key c.keyValue).isSome

/-- From the source: `cockroachdb.Close`. -/
def Cockroachdb.Close (c : Cockroachdb) : Cockroachdb :=
  { c with shutdown := true }

/-- From the source: `cockroachdb.Open` (the bootstrap part, after `gorm.Open`
succeeds): reads the version marker through `Get`; if absent, encodes
a fresh marker and writes it through `Put` (which seals it); any other
`Get` error is returned unchanged, and a successfully fetched marker
is accepted without decoding it or checking its version. -/
def Cockroachdb.Open (c : Cockroachdb) (now : Int) : Except DBError Cockroachdb :=
  match c.Get DatabaseVersionKey with
  | .error .errNotFound =>
    c.Put DatabaseVersionKey (EncodeVersion { Version := DatabaseVersion, Time := now })
  | .error e => .error e
  | .ok _ => .ok c

/-- The directory holding key files, modelled as an association list
from path to the decoded content of the key file (`SaveEncryptionKey`
writes the JSON encoding of an `EncryptionKey`; `LoadEncryptionKey`
reads it back). -/
def FileSys : Type := List (String × EncryptionKey)

/-- From the source: `util.FileExists` on the modelled directory. -/
def FileExists (path : String) (fs : FileSys) : Bool :=
  (getKV path fs).isSome

/-- From the source: `database.ResolveEncryptionKey` (encrypt.go): joins the key
directory with `DefaultEncryptionKeyFilename`; when no file exists
there, generates a fresh 32-byte key (`sbox.NewKey`, passed in as
`newKey`) and saves it with the current time (`now`); otherwise does
nothing.  Both paths return success in the source; write errors are
environmental and not modelled. -/
def ResolveEncryptionKey (newKey : SecretKey) (now : Int) (keyPath : String)
    (fs : FileSys) : FileSys :=
  let encryptionKeyPath := keyPath ++ "/" ++ DefaultEncryptionKeyFilename
  if FileExists encryptionKeyPath fs then fs
  else setKV encryptionKeyPath { Key := newKey, Time := now } fs

/-- From the source: `cache.File` (politeiad/cache/cache.go). -/
structure CacheFile where
  Name : String := ""
  MIME : String := ""
  Digest : String := ""
  Payload : String := ""
  deriving DecidableEq

/-- From the source: `cache.MetadataStream` (politeiad/cache/cache.go). -/
structure CacheMetadataStream where
  ID : Nat := 0
  Payload : String := ""
  deriving DecidableEq

/-- From the source: `cache.CensorshipRecord` (politeiad/cache/cache.go). -/
structure CacheCensorshipRecord where
  Token : String := ""
  Merkle : String := ""
  Signature : String := ""
  deriving DecidableEq

/-- From the source: `cache.Record` (politeiad/cache/cache.go).  `RecordStatusT` is a
Go `int`, modelled as `Int`. -/
structure CacheRecord where
  Version : String := ""
  Status : Int := 0
  Timestamp : Int := 0
  CensorshipRecord : CacheCensorshipRecord := {}
  Metadata : List CacheMetadataStream := []
  Files : List CacheFile := []
  deriving DecidableEq

/-- The `cache.RecordStatusT` codes (politeiad/cache/cache.go). -/
def RecordStatusInvalid : Int := 0

def RecordStatusNotFound : Int := 1

def RecordStatusNotReviewed : Int := 2

def RecordStatusCensored : Int := 3

def RecordStatusPublic : Int := 4

def RecordStatusUnreviewedChanges : Int := 5

def RecordStatusArchived : Int := 6

/-- From the source: `cache.InventoryStats` (politeiad/cache/cache.go): counts of
records by status over the latest version of each record. -/
structure InventoryStats where
  Invalid : Nat := 0
  NotReviewed : Nat := 0
  Censored : Nat := 0
  Public : Nat := 0
  UnreviewedChanges : Nat := 0
  Archived : Nat := 0
  Total : Nat := 0
  deriving DecidableEq

/-- The cockroachdb cache metadata-stream model (`MetadataStream` of
politeiad/cache/cockroachdb), with the fields populated by
`convertMDStreamFromCache`. -/
structure DbMetadataStream where
  ID : Nat := 0
  Payload : String := ""
  deriving DecidableEq

/-- The cockroachdb cache file model (`File` of
politeiad/cache/cockroachdb), with the fields populated by
`convertRecordFromCache`. -/
structure DbFile where
  Name : String := ""
  MIME : String := ""
  Digest : String := ""
  Payload : String := ""
  deriving DecidableEq

/-- The cockroachdb cache record model (`Record` of
politeiad/cache/cockroachdb), with the fields populated by
`convertRecordFromCache`: the composite storage key plus the flattened
censorship record. -/
structure DbRecord where
  Key : String := ""
  Token : String := ""
  Version : String := ""
  Status : Int := 0
  Timestamp : Int := 0
  Merkle : String := ""
  Signature : String := ""
  Metadata : List DbMetadataStream := []
  Files : List DbFile := []
  deriving DecidableEq

/-- From the source: `convertMDStreamFromCache` (politeiad/cache/cockroachdb/convert.go). -/
def convertMDStreamFromCache (ms : CacheMetadataStream) : DbMetadataStream :=
  { ID := ms.ID
    Payload := ms.Payload }

/-- From the source: `convertRecordFromCache` (convert.go): maps a cache record to the
SQL model; the storage key is the string concatenation of the
censorship token and the version. -/
def convertRecordFromCache (r : CacheRecord) : DbRecord :=
  { Key := r.CensorshipRecord.Token ++ r.Version
    Token := r.CensorshipRecord.Token
    Version := r.Version
    Status := r.Status
    Timestamp := r.Timestamp
    Merkle := r.CensorshipRecord.Merkle
    Signature := r.CensorshipRecord.Signature
    Metadata := r.Metadata.map convertMDStreamFromCache
    Files := r.Files.map (fun f =>
      { Name := f.Name
        MIME := f.MIME
        Digest := f.Digest
        Payload := f.Payload }) }

/-- From the source: `convertRecordToCache` (convert.go): maps an SQL record back to a
cache record, rebuilding the censorship record from the flattened
fields. -/
def convertRecordToCache (r : DbRecord) : CacheRecord :=
  { Version := r.Version
    Status := r.Status
    Timestamp := r.Timestamp
    CensorshipRecord :=
      { Token := r.Token
        Merkle := r.Merkle
        Signature := r.Signature }
    Metadata := r.Metadata.map (fun ms =>
      { ID := ms.ID
        Payload := ms.Payload })
    Files := r.Files.map (fun f =>
      { Name := f.Name
        MIME := f.MIME
        Digest := f.Digest
        Payload := f.Payload }) }

/-- Modelled from the spec: one row of the record cache.  The cache
implementation behind the `Cache` interface (politeiad/cache/cache.go)
is not part of the sources; per §3 the storage identity is the
composite `(Token, Version)`, with the version "monotonically
increasing string/integer per edit", modelled here as a `Nat` key
alongside the stored content. -/
structure CacheEntry where
  Token : String := ""
  VersionNum : Nat := 0
  Rec : CacheRecord := {}
  deriving DecidableEq

/-- Modelled from the spec: the state of the record cache, the
multiset of persisted `(token, version, content)` rows. -/
structure CacheState where
  entries : List CacheEntry := []
  deriving DecidableEq

/-- Errors of the `cache` package (politeiad/cache/cache.go). -/
inductive CacheError : Type
  | errWrongVersion
  | errShutdown
  | errRecordNotFound
  | errInvalidPlugin
  | errDuplicatePlugin
  | errInvalidPluginCmd
  deriving DecidableEq

/-- The rows stored for one token. -/
def CacheState.tokenEntries (s : CacheState) (t : String) : List CacheEntry :=
  s.entries.filter (fun e => e.Token == t)

/-- Picks the entry with the greatest version among `best` and `rest`
(the "latest version" of §3: the one with the highest version value). -/
def latestAux (best : CacheEntry) : List CacheEntry → CacheEntry
  | [] => best
  | e :: rest => latestAux (if best.VersionNum < e.VersionNum then e else best) rest

/-- Modelled from the spec: the latest row of a token, when the token
has any row at all. -/
def CacheState.latest (s : CacheState) (t : String) : Option CacheEntry :=
  match s.tokenEntries t with
  | [] => none
  | e :: rest => some (latestAux e rest)

/-- Modelled from the spec: `Record(token)` returns the latest version
of a token, or `ErrRecordNotFound` if the token is absent (§4.4). -/
def CacheState.Record (s : CacheState) (t : String) : Except CacheError CacheRecord :=
  match s.latest t with
  | none => .error .errRecordNotFound
  | some e => .ok e.Rec

/-- Modelled from the spec: `RecordVersion(token, version)` returns a
specific version of a token, or `ErrRecordNotFound` if absent (§4.4). -/
def CacheState.RecordVersion (s : CacheState) (t : String) (v : Nat) :
    Except CacheError CacheRecord :=
  match s.entries.find? (fun e => e.Token == t && e.VersionNum == v) with
  | none => .error .errRecordNotFound
  | some e => .ok e.Rec

/-- Modelled from the spec: `UpdateRecord` inserts a new version row
for a token; existing rows are never edited or deleted (§4.4, §3). -/
def CacheState.UpdateRecord (s : CacheState) (t : String) (v : Nat)
    (r : CacheRecord) : CacheState :=
  { entries := { Token := t, VersionNum := v, Rec := r } :: s.entries }

/-- The distinct tokens present in the cache. -/
def CacheState.Tokens (s : CacheState) : List String :=
  (s.entries.map (·.Token)).dedup

/-- Modelled from the spec: `Inventory()` returns the latest version
of every token, across all statuses (§4.4). -/
def CacheState.Inventory (s : CacheState) : List CacheRecord :=
  s.Tokens.filterMap (fun t => (s.latest t).map (·.Rec))

/-- Modelled from the spec: `InventoryStats()` recomputes the
per-status counts over latest versions only (§4.4, §3). -/
def CacheState.InventoryStats (s : CacheState) : InventoryStats :=
  let inv := s.Inventory
  { Invalid := inv.countP (fun r => r.Status == RecordStatusInvalid)
    NotReviewed := inv.countP (fun r => r.Status == RecordStatusNotReviewed)
    Censored := inv.countP (fun r => r.Status == RecordStatusCensored)
    Public := inv.countP (fun r => r.Status == RecordStatusPublic)
    UnreviewedChanges := inv.countP (fun r => r.Status == RecordStatusUnreviewedChanges)
    Archived := inv.countP (fun r => r.Status == RecordStatusArchived)
    Total := inv.length }

/-- A persistable status: one of the six non-sentinel values that the
cache accepts (§4.5; `RecordStatusNotFound` is a sentinel that is
never persisted). -/
def validStatus (st : Int) : Bool :=
  st == RecordStatusInvalid || st == RecordStatusNotReviewed ||
  st == RecordStatusCensored || st == RecordStatusPublic ||
  st == RecordStatusUnreviewedChanges || st == RecordStatusArchived

/-- One invocation of a store operation, for reasoning about
operation sequences around `Close`. -/
inductive StoreOp : Type
  | put (key : String) (payload : Blob)
  | get (key : String)
  | has (key : String)
  | getAll
  | snapshot (now : Int)
  | close
  deriving DecidableEq

/-- The value produced by a successful store operation. -/
inductive StoreOut : Type
  | unit
  | payload (b : Blob)
  | bool (b : Bool)
  | pairs (l : List (String × Blob))
  | snap (s : StoreSnapshot)
  deriving DecidableEq

/-- Runs one operation on the leveldb backend, returning the new
backend state and the operation's result. -/
def runStoreOp (l : Leveldb) (op : StoreOp) : Leveldb × Except DBError StoreOut :=
  match op with
  | .put k p =>
    match l.Put k p with
    | .ok l' => (l', .ok .unit)
    | .error e => (l, .error e)
  | .get k => (l, (l.Get k).map .payload)
  | .has k => (l, (l.Has k).map .bool)
  | .getAll => (l, (l.GetAll).map .pairs)
  | .snapshot now => (l, (l.GetSnapshot now).map .snap)
  | .close => (l.Close, .ok .unit)

/-- Runs a sequence of operations, keeping only the final state. -/
def runStoreOps (l : Leveldb) : List StoreOp → Leveldb
  | [] => l
  | op :: rest => runStoreOps (runStoreOp l op).1 rest

/-- Whether an operation is one of the data operations guarded by the
shutdown flag (`Close` itself is not). -/
def isDataOp : StoreOp → Bool
  | .close => false
  | _ => true

/-- Checks, along a run of `ops` from state `l`, that every data
operation returns `ErrShutdown` while leaving the backend state
untouched, and that the shutdown flag stays set after every step. -/
def allShutdownRejected (l : Leveldb) : List StoreOp → Bool
  | [] => true
  | op :: rest =>
    let step := runStoreOp l op
    (if isDataOp op then
      decide (step.2 = .error .errShutdown) && decide (step.1 = l)
    else true)
    && step.1.shutdown && allShutdownRejected step.1 rest

/-! ## Witness fixtures: concrete states for the closed instances. -/

/-- A live leveldb store holding a stale value under `"k"`. -/
def ldbReplaceStore : Leveldb :=
  { shutdown := false
    userdb := [("k", Blob.bytes [9])]
    encryptionKey := { Key := zeroKey } }

/-- A live, empty leveldb store. -/
def ldbFreshStore : Leveldb :=
  { shutdown := false
    userdb := []
    encryptionKey := { Key := zeroKey } }

/-- A live leveldb store holding, under `"w"`, a value sealed with a
key different from the store's. -/
def ldbWrongKeyStore : Leveldb :=
  { shutdown := false
    userdb := [("w", Blob.sealed DatabaseVersion oneKey (Blob.bytes [3]))]
    encryptionKey := { Key := zeroKey } }

/-- A live, empty cockroachdb store. -/
def cdbFreshStore : Cockroachdb :=
  { shutdown := false
    keyValue := []
    encryptionKey := { Key := zeroKey } }

/-- A live cockroachdb store whose version marker is sealed under the
store's own key but carries embedded version 2 ≠ `DatabaseVersion`. -/
def cdbWrongVersionStore : Cockroachdb :=
  { shutdown := false
    keyValue := [(DatabaseVersionKey, Blob.sealed 2 zeroKey (Blob.bytes []))]
    encryptionKey := { Key := zeroKey } }

/-- A live cockroachdb store whose version marker is sealed under a
key different from the store's. -/
def cdbWrongKeyStore : Cockroachdb :=
  { shutdown := false
    keyValue := [(DatabaseVersionKey, Blob.sealed DatabaseVersion oneKey (Blob.bytes []))]
    encryptionKey := { Key := zeroKey } }

/-- A record with token `"ab"` and version `"1"`. -/
def recTokenAB : CacheRecord :=
  { Version := "1", CensorshipRecord := { Token := "ab" } }

/-- A record with token `"a"` and version `"b1"`: a different
`(Token, Version)` identity with the same concatenation. -/
def recTokenA : CacheRecord :=
  { Version := "b1", CensorshipRecord := { Token := "a" } }

/-- A small cache: token `"abc"` with versions 1 and 2, token `"def"`
with version 1, all with persistable statuses. -/
def cacheSample : CacheState :=
  { entries :=
      [ { Token := "abc", VersionNum := 2
          Rec := { Version := "2", Status := RecordStatusPublic } }
      , { Token := "abc", VersionNum := 1
          Rec := { Version := "1", Status := RecordStatusNotReviewed } }
      , { Token := "def", VersionNum := 1
          Rec := { Version := "1", Status := RecordStatusCensored } } ] }

/-- Version-1 content of token `"abc"` for the history witness. -/
def recV1 : CacheRecord :=
  { Version := "1", Status := RecordStatusNotReviewed
    CensorshipRecord := { Token := "abc" } }

/-- Version-2 content of token `"abc"` for the history witness. -/
def recV2 : CacheRecord :=
  { Version := "2", Status := RecordStatusPublic
    CensorshipRecord := { Token := "abc" } }

/-- A cache holding only version 1 of token `"abc"`. -/
def cacheSampleOneVersion : CacheState :=
  { entries := [{ Token := "abc", VersionNum := 1, Rec := recV1 }] }

/-! ## Helper lemmas. -/

theorem getKV_setKV_self {α : Type} (k : String) (v : α) (m : List (String × α)) :
    getKV k (setKV k v m) = some v := by
  induction m with
  | nil => simp [getKV, setKV]
  | cons hd tl ih =>
    obtain ⟨k', v'⟩ := hd
    by_cases h : k' = k
    · simp [getKV, setKV, h]
    · simp [getKV, setKV, h, ih]

theorem Decrypt_error_elim (key : SecretKey) (b : Blob) (e : DBError)
    (h : Decrypt key b = .error e) : e = .errDecrypt := by
  cases b with
  | bytes bs => exact (by simpa [Decrypt] using h : DBError.errDecrypt = e).symm
  | versionPayload v => exact (by simpa [Decrypt] using h : DBError.errDecrypt = e).symm
  | sealed v k inner =>
    by_cases hk : k = key
    · simp [Decrypt, hk] at h
    · exact (by simpa [Decrypt, hk] using h : DBError.errDecrypt = e).symm

theorem md_map_roundtrip : ∀ l : List CacheMetadataStream,
    List.map (fun ms : DbMetadataStream =>
        ({ ID := ms.ID, Payload := ms.Payload } : CacheMetadataStream))
      (List.map convertMDStreamFromCache l) = l
  | [] => rfl
  | a :: t => by
    rw [List.map_cons, List.map_cons, md_map_roundtrip t]
    rfl

theorem file_map_roundtrip : ∀ l : List CacheFile,
    List.map (fun f : DbFile =>
        ({ Name := f.Name, MIME := f.MIME, Digest := f.Digest,
           Payload := f.Payload } : CacheFile))
      (List.map (fun f : CacheFile =>
        ({ Name := f.Name, MIME := f.MIME, Digest := f.Digest,
           Payload := f.Payload } : DbFile)) l) = l
  | [] => rfl
  | a :: t => by
    rw [List.map_cons, List.map_cons, file_map_roundtrip t]

/-- C10: for every cache record, converting it to the SQL model and
back is the identity on every field — version, status, timestamp, the
full censorship record, and the metadata and file lists
element-for-element in order. -/
theorem convert_record_roundtrip (r : CacheRecord) :
    convertRecordToCache (convertRecordFromCache r) = r := by
  cases r with
  | mk version status timestamp cr md files =>
    cases cr with
    | mk token merkle signature =>
      simp only [convertRecordFromCache, convertRecordToCache]
      exact congrArg₂ (CacheRecord.mk version status timestamp
        (CacheCensorshipRecord.mk token merkle signature))
        (md_map_roundtrip md) (file_map_roundtrip files)

/-- C9: the SQL cache backend derives the storage key of a record by
string concatenation of token and version, and that mapping is not
injective over `(Token, Version)` identities: the records `recTokenAB`
(token `"ab"`, version `"1"`) and `recTokenA` (token `"a"`, version
`"b1"`) have different identities but the same storage key. -/
theorem record_key_concatenation_not_injective :
    (∀ r : CacheRecord,
      (convertRecordFromCache r).Key = r.CensorshipRecord.Token ++ r.Version)
    ∧ (convertRecordFromCache recTokenAB).Key = (convertRecordFromCache recTokenA).Key
    ∧ ((convertRecordFromCache recTokenAB).Token, (convertRecordFromCache recTokenAB).Version)
        ≠ ((convertRecordFromCache recTokenA).Token, (convertRecordFromCache recTokenA).Version) := by
  refine ⟨fun r => rfl, by decide, by decide⟩

/-- C2: on a live store, `Put` followed by `Get` on the same key
returns exactly the payload that was put (the plaintext survives the
seal/open round trip), whatever value the key previously held — `Put`
replaces any existing value. -/
theorem leveldb_put_get_roundtrip (l : Leveldb) (key : String) (payload : Blob)
    (h : l.shutdown = false) :
    ∃ l', l.Put key payload = .ok l' ∧ l'.Get key = .ok payload := by
  refine ⟨{ l with
    userdb := setKV key (Encrypt DatabaseVersion l.encryptionKey.Key payload) l.userdb }, ?_, ?_⟩
  · simp [Leveldb.Put, h]
  · simp [Leveldb.Get, h, getKV_setKV_self, Encrypt, Decrypt]

theorem leveldb_put_get_roundtrip_witness :
    ldbReplaceStore.shutdown = false
    ∧ ∃ l', ldbReplaceStore.Put "k" (Blob.bytes [1, 2]) = .ok l'
        ∧ l'.Get "k" = .ok (Blob.bytes [1, 2]) :=
  ⟨rfl, leveldb_put_get_roundtrip ldbReplaceStore "k" (Blob.bytes [1, 2]) rfl⟩

/-- C7: on a live store (either backend), `Get` returns `ErrNotFound`
when the key is absent, and when the key is present but the stored
ciphertext cannot be opened with the store's key, `Get` returns the
decryption error unchanged. -/
theorem get_error_cases :
    (∀ (l : Leveldb) (key : String), l.shutdown = false →
      getKV key l.userdb = none → l.Get key = .error .errNotFound)
    ∧ (∀ (l : Leveldb) (key : String) (b : Blob) (e : DBError), l.shutdown = false →
        getKV key l.userdb = some b → Decrypt l.encryptionKey.Key b = .error e →
        l.Get key = .error e)
    ∧ (∀ (c : Cockroachdb) (key : String), c.shutdown = false →
        getKV key c.keyValue = none → c.Get key = .error .errNotFound)
    ∧ (∀ (c : Cockroachdb) (key : String) (b : Blob) (e : DBError), c.shutdown = false →
        getKV key c.keyValue = some b → Decrypt c.encryptionKey.Key b = .error e →
        c.Get key = .error e) := by
  refine ⟨?_, ?_, ?_, ?_⟩
  · intro l key h hk
    simp [Leveldb.Get, h, hk]
  · intro l key b e h hk hd
    simp [Leveldb.Get, h, hk, hd]
  · intro c key h hk
    simp [Cockroachdb.Get, h, hk]
  · intro c key b e h hk hd
    simp [Cockroachdb.Get, h, hk, hd]

theorem get_error_cases_witness :
    ldbFreshStore.Get "missing" = .error .errNotFound
    ∧ ldbWrongKeyStore.Get "w" = .error .errDecrypt
    ∧ cdbFreshStore.Get "missing" = .error .errNotFound
    ∧ cdbWrongKeyStore.Get DatabaseVersionKey = .error .errDecrypt :=
  ⟨get_error_cases.1 ldbFreshStore "missing" rfl rfl,
   get_error_cases.2.1 ldbWrongKeyStore "w"
     (Blob.sealed DatabaseVersion oneKey (Blob.bytes [3])) .errDecrypt rfl rfl (by decide),
   get_error_cases.2.2.1 cdbFreshStore "missing" rfl rfl,
   get_error_cases.2.2.2 cdbWrongKeyStore DatabaseVersionKey
     (Blob.sealed DatabaseVersion oneKey (Blob.bytes [])) .errDecrypt rfl rfl (by decide)⟩

/-- C8: `ResolveEncryptionKey` generates and saves a fresh 32-byte
key only when the key file is absent at the resolved path; when the
file exists it leaves the directory untouched, and running it twice is
the same as running it once — the key is created exactly once. -/
theorem resolve_encryption_key_idempotent :
    (∀ (k : SecretKey) (now : Int) (keyPath : String) (fs : FileSys),
      FileExists (keyPath ++ "/" ++ DefaultEncryptionKeyFilename) fs = false →
        ResolveEncryptionKey k now keyPath fs
          = setKV (keyPath ++ "/" ++ DefaultEncryptionKeyFilename)
              { Key := k, Time := now } fs
        ∧ getKV (keyPath ++ "/" ++ DefaultEncryptionKeyFilename)
            (ResolveEncryptionKey k now keyPath fs) = some { Key := k, Time := now }
        ∧ k.val.length = 32)
    ∧ (∀ (k : SecretKey) (now : Int) (keyPath : String) (fs : FileSys),
        FileExists (keyPath ++ "/" ++ DefaultEncryptionKeyFilename) fs = true →
          ResolveEncryptionKey k now keyPath fs = fs)
    ∧ (∀ (k2 : SecretKey) (t2 : Int) (k1 : SecretKey) (t1 : Int)
        (keyPath : String) (fs : FileSys),
        ResolveEncryptionKey k2 t2 keyPath (ResolveEncryptionKey k1 t1 keyPath fs)
          = ResolveEncryptionKey k1 t1 keyPath fs) := by
  refine ⟨?_, ?_, ?_⟩
  · intro k now keyPath fs h
    refine ⟨by simp [ResolveEncryptionKey, h], ?_, k.property⟩
    simp [ResolveEncryptionKey, h, getKV_setKV_self]
  · intro k now keyPath fs h
    simp [ResolveEncryptionKey, h]
  · intro k2 t2 k1 t1 keyPath fs
    by_cases h : FileExists (keyPath ++ "/" ++ DefaultEncryptionKeyFilename) fs = true
    · simp [ResolveEncryptionKey, h]
    · have h' : FileExists (keyPath ++ "/" ++ DefaultEncryptionKeyFilename) fs = false := by
        simpa using h
      have hstep : ResolveEncryptionKey k1 t1 keyPath fs
          = setKV (keyPath ++ "/" ++ DefaultEncryptionKeyFilename)
              { Key := k1, Time := t1 } fs := by
        simp [ResolveEncryptionKey, h']
      have hex : FileExists (keyPath ++ "/" ++ DefaultEncryptionKeyFilename)
          (setKV (keyPath ++ "/" ++ DefaultEncryptionKeyFilename)
            { Key := k1, Time := t1 } fs) = true := by
        simp [FileExists, getKV_setKV_self]
      rw [hstep]
      simp [ResolveEncryptionKey, hex]

theorem resolve_encryption_key_idempotent_witness :
    ResolveEncryptionKey zeroKey 5 "home" []
      = setKV ("home" ++ "/" ++ DefaultEncryptionKeyFilename)
          { Key := zeroKey, Time := 5 } []
    ∧ getKV ("home" ++ "/" ++ DefaultEncryptionKeyFilename)
        (ResolveEncryptionKey zeroKey 5 "home" []) = some { Key := zeroKey, Time := 5 }
    ∧ zeroKey.val.length = 32 :=
  resolve_encryption_key_idempotent.1 zeroKey 5 "home" [] rfl

/-- C6: the persisted JSON envelope decoders reject a payload whose
embedded record version differs from the current `DatabaseVersion`
with `ErrWrongRecordVersion`; with a matching record version they
reject a wrong record-kind tag with `ErrWrongRecordType`; they return
the decoded value exactly when both match; and these two errors are
distinct from each other and from the store-level `ErrWrongVersion`. -/
theorem decode_envelope_checks :
    (∀ u : User, u.RecordVersion ≠ DatabaseVersion →
      DecodeUser u = .error .errWrongRecordVersion)
    ∧ (∀ u : User, u.RecordVersion = DatabaseVersion → u.RecordType ≠ RecordTypeUser →
        DecodeUser u = .error .errWrongRecordType)
    ∧ (∀ u : User, u.RecordVersion = DatabaseVersion → u.RecordType = RecordTypeUser →
        DecodeUser u = .ok u)
    ∧ (∀ v : DBVersion, v.RecordVersion ≠ DatabaseVersion →
        DecodeVersion v = .error .errWrongRecordVersion)
    ∧ (∀ v : DBVersion, v.RecordVersion = DatabaseVersion →
        v.RecordType ≠ RecordTypeVersion →
        DecodeVersion v = .error .errWrongRecordType)
    ∧ (∀ v : DBVersion, v.RecordVersion = DatabaseVersion →
        v.RecordType = RecordTypeVersion → DecodeVersion v = .ok v)
    ∧ DBError.errWrongRecordVersion ≠ DBError.errWrongVersion
    ∧ DBError.errWrongRecordType ≠ DBError.errWrongVersion
    ∧ DBError.errWrongRecordVersion ≠ DBError.errWrongRecordType := by
  refine ⟨?_, ?_, ?_, ?_, ?_, ?_, by decide, by decide, by decide⟩
  · intro u h
    simp [DecodeUser, verifyRecordVersion, verifyRecordType, h]
  · intro u h1 h2
    simp [DecodeUser, verifyRecordVersion, verifyRecordType, h1, h2]
  · intro u h1 h2
    simp [DecodeUser, verifyRecordVersion, verifyRecordType, h1, h2]
  · intro v h
    simp [DecodeVersion, verifyRecordVersion, verifyRecordType, h]
  · intro v h1 h2
    simp [DecodeVersion, verifyRecordVersion, verifyRecordType, h1, h2]
  · intro v h1 h2
    simp [DecodeVersion, verifyRecordVersion, verifyRecordType, h1, h2]

theorem decode_envelope_checks_witness :
    DecodeUser { RecordType := RecordTypeUser, RecordVersion := DatabaseVersion }
      = .ok { RecordType := RecordTypeUser, RecordVersion := DatabaseVersion }
    ∧ DecodeUser { RecordType := RecordTypeUser, RecordVersion := 7 }
      = .error .errWrongRecordVersion
    ∧ DecodeUser { RecordType := RecordTypeVersion, RecordVersion := DatabaseVersion }
      = .error .errWrongRecordType
    ∧ DecodeVersion ⟨RecordTypeVersion, DatabaseVersion, DatabaseVersion, 3⟩
      = .ok ⟨RecordTypeVersion, DatabaseVersion, DatabaseVersion, 3⟩
    ∧ DecodeVersion { RecordType := RecordTypeVersion, RecordVersion := 9 }
      = .error .errWrongRecordVersion
    ∧ DecodeVersion { RecordType := RecordTypeUser, RecordVersion := DatabaseVersion }
      = .error .errWrongRecordType :=
  ⟨decode_envelope_checks.2.2.1 _ rfl rfl,
   decode_envelope_checks.1 _ (by decide),
   decode_envelope_checks.2.1 _ rfl (by decide),
   decode_envelope_checks.2.2.2.2.2.1 _ rfl rfl,
   decode_envelope_checks.2.2.2.1 _ (by decide),
   decode_envelope_checks.2.2.2.2.1 _ rfl (by decide)⟩


theorem latestAux_mem : ∀ (l : List CacheEntry) (best : CacheEntry),
    latestAux best l ∈ best :: l
  | [], best => by simp [latestAux]
  | e :: rest, best => by
    have h := latestAux_mem rest (if best.VersionNum < e.VersionNum then e else best)
    simp only [latestAux]
    by_cases hb : best.VersionNum < e.VersionNum
    · rw [if_pos hb] at h ⊢
      rcases List.mem_cons.mp h with h' | h'
      · exact List.mem_cons_of_mem _ (by rw [h']; exact List.mem_cons_self _ _)
      · exact List.mem_cons_of_mem _ (List.mem_cons_of_mem _ h')
    · rw [if_neg hb] at h ⊢
      rcases List.mem_cons.mp h with h' | h'
      · rw [h']; exact List.mem_cons_self _ _
      · exact List.mem_cons_of_mem _ (List.mem_cons_of_mem _ h')

theorem latestAux_fresh : ∀ (l : List CacheEntry) (best : CacheEntry),
    (∀ e ∈ l, e.VersionNum < best.VersionNum) → latestAux best l = best
  | [], _, _ => rfl
  | e :: rest, best, h => by
    have he : e.VersionNum < best.VersionNum := h e (List.mem_cons_self _ _)
    have hnb : ¬ best.VersionNum < e.VersionNum := by omega
    simp only [latestAux, if_neg hnb]
    exact latestAux_fresh rest best (fun x hx => h x (List.mem_cons_of_mem _ hx))

theorem latest_mem_entries (s : CacheState) (t : String) (e : CacheEntry)
    (h : s.latest t = some e) : e ∈ s.entries := by
  unfold CacheState.latest at h
  cases htok : s.tokenEntries t with
  | nil => rw [htok] at h; simp at h
  | cons a rest =>
    rw [htok] at h
    simp only [Option.some.injEq] at h
    have hm := latestAux_mem rest a
    rw [h] at hm
    have hmem : e ∈ s.tokenEntries t := by rw [htok]; exact hm
    exact List.mem_of_mem_filter hmem

theorem latest_isSome_of_mem_tokens (s : CacheState) (t : String)
    (h : t ∈ s.Tokens) : ∃ e, s.latest t = some e := by
  unfold CacheState.Tokens at h
  rw [List.mem_dedup] at h
  rcases List.mem_map.mp h with ⟨a, ha, rfl⟩
  have hmem : a ∈ s.tokenEntries a.Token := by
    unfold CacheState.tokenEntries
    exact List.mem_filter.mpr ⟨ha, by simp⟩
  unfold CacheState.latest
  cases htok : s.tokenEntries a.Token with
  | nil => rw [htok] at hmem; simp at hmem
  | cons b rest => exact ⟨latestAux b rest, rfl⟩

theorem length_filterMap_isSome {α β : Type} (f : α → Option β) :
    ∀ l : List α, (∀ a ∈ l, (f a).isSome) → (l.filterMap f).length = l.length
  | [], _ => rfl
  | a :: t, h => by
    cases hf : f a with
    | none =>
      exact absurd (h a (List.mem_cons_self _ _)) (by simp [hf])
    | some b =>
      simp only [List.filterMap_cons, hf, List.length_cons]
      rw [length_filterMap_isSome f t (fun x hx => h x (List.mem_cons_of_mem _ hx))]

theorem countP_int_partition :
    ∀ l : List Int, (∀ x ∈ l, x = 0 ∨ x = 2 ∨ x = 3 ∨ x = 4 ∨ x = 5 ∨ x = 6) →
      l.countP (· == 0) + l.countP (· == 2) + l.countP (· == 3)
        + l.countP (· == 4) + l.countP (· == 5) + l.countP (· == 6) = l.length
  | [], _ => rfl
  | x :: t, h => by
    have hx := h x (List.mem_cons_self _ _)
    have ht := countP_int_partition t (fun y hy => h y (List.mem_cons_of_mem _ hy))
    simp only [List.countP_cons, List.length_cons]
    rcases hx with h' | h' | h' | h' | h' | h' <;> subst h' <;> simp <;> omega

theorem countP_status_partition (l : List CacheRecord)
    (h : ∀ r ∈ l, validStatus r.Status = true) :
    l.countP (fun r => r.Status == RecordStatusInvalid)
      + l.countP (fun r => r.Status == RecordStatusNotReviewed)
      + l.countP (fun r => r.Status == RecordStatusCensored)
      + l.countP (fun r => r.Status == RecordStatusPublic)
      + l.countP (fun r => r.Status == RecordStatusUnreviewedChanges)
      + l.countP (fun r => r.Status == RecordStatusArchived) = l.length := by
  have hm : ∀ x ∈ l.map (fun r : CacheRecord => r.Status),
      x = 0 ∨ x = 2 ∨ x = 3 ∨ x = 4 ∨ x = 5 ∨ x = 6 := by
    intro x hx
    rcases List.mem_map.mp hx with ⟨r, hr, rfl⟩
    have hv := h r hr
    have hv' : (((((r.Status = 0 ∨ r.Status = 2) ∨ r.Status = 3) ∨ r.Status = 4)
        ∨ r.Status = 5) ∨ r.Status = 6) := by
      simpa [validStatus, RecordStatusInvalid, RecordStatusNotReviewed,
        RecordStatusCensored, RecordStatusPublic, RecordStatusUnreviewedChanges,
        RecordStatusArchived] using hv
    tauto
  have hpart := countP_int_partition (l.map (fun r : CacheRecord => r.Status)) hm
  have hlen : (l.map (fun r : CacheRecord => r.Status)).length = l.length :=
    List.length_map _ _
  rw [hlen] at hpart
  simpa [List.countP_map, Function.comp, RecordStatusInvalid, RecordStatusNotReviewed,
    RecordStatusCensored, RecordStatusPublic, RecordStatusUnreviewedChanges,
    RecordStatusArchived] using hpart

/-- C3: every `InventoryStats` result satisfies — the per-status
counts (Invalid, NotReviewed, Censored, Public, UnreviewedChanges,
Archived) sum to `Total`; `Total` is the number of records returned by
`Inventory()`; and that number is the number of distinct tokens, each
token counted exactly once over its latest version only.  (Hypothesis:
every persisted status is one of the six non-sentinel values, which
the cache enforces per §4.5.) -/
theorem inventory_stats_partition (s : CacheState)
    (h : ∀ e ∈ s.entries, validStatus e.Rec.Status = true) :
    s.InventoryStats.Invalid + s.InventoryStats.NotReviewed + s.InventoryStats.Censored
      + s.InventoryStats.Public + s.InventoryStats.UnreviewedChanges
      + s.InventoryStats.Archived = s.InventoryStats.Total
    ∧ s.InventoryStats.Total = s.Inventory.length
    ∧ s.Inventory.length = s.Tokens.length
    ∧ s.Tokens.Nodup := by
  have hinv : ∀ r ∈ s.Inventory, validStatus r.Status = true := by
    intro r hr
    unfold CacheState.Inventory at hr
    rcases List.mem_filterMap.mp hr with ⟨t, _, hmap⟩
    cases hl : s.latest t with
    | none => rw [hl] at hmap; simp at hmap
    | some e =>
      rw [hl] at hmap
      simp at hmap
      rw [← hmap]
      exact h e (latest_mem_entries s t e hl)
  refine ⟨?_, rfl, ?_, List.nodup_dedup _⟩
  · simpa [CacheState.InventoryStats] using countP_status_partition s.Inventory hinv
  · unfold CacheState.Inventory
    refine length_filterMap_isSome _ s.Tokens ?_
    intro t ht
    rcases latest_isSome_of_mem_tokens s t ht with ⟨e, he⟩
    simp [he]

theorem inventory_stats_partition_witness :
    (∀ e ∈ cacheSample.entries, validStatus e.Rec.Status = true)
    ∧ (cacheSample.InventoryStats.Invalid + cacheSample.InventoryStats.NotReviewed
        + cacheSample.InventoryStats.Censored + cacheSample.InventoryStats.Public
        + cacheSample.InventoryStats.UnreviewedChanges
        + cacheSample.InventoryStats.Archived = cacheSample.InventoryStats.Total
      ∧ cacheSample.InventoryStats.Total = cacheSample.Inventory.length
      ∧ cacheSample.Inventory.length = cacheSample.Tokens.length
      ∧ cacheSample.Tokens.Nodup) :=
  ⟨by decide, inventory_stats_partition cacheSample (by decide)⟩

/-- C5: after `UpdateRecord` inserts a fresh, higher version `v'` for
a token, `Record` returns the new content while `RecordVersion` at the
old version still returns the originally stored content unchanged in
all fields — historical versions are never edited or deleted by later
updates. -/
theorem update_record_preserves_history (s : CacheState) (t : String)
    (v v' : Nat) (r r' : CacheRecord)
    (hne : v ≠ v')
    (hfresh : ∀ e ∈ s.tokenEntries t, e.VersionNum < v')
    (hold : s.RecordVersion t v = .ok r) :
    (s.UpdateRecord t v' r').Record t = .ok r'
    ∧ (s.UpdateRecord t v' r').RecordVersion t v = .ok r
    ∧ (s.UpdateRecord t v' r').RecordVersion t v' = .ok r' := by
  have hne' : v' ≠ v := Ne.symm hne
  have hte : (s.UpdateRecord t v' r').tokenEntries t
      = ({ Token := t, VersionNum := v', Rec := r' } : CacheEntry) :: s.tokenEntries t := by
    simp [CacheState.UpdateRecord, CacheState.tokenEntries]
  have hent : (s.UpdateRecord t v' r').entries
      = ({ Token := t, VersionNum := v', Rec := r' } : CacheEntry) :: s.entries := rfl
  refine ⟨?_, ?_, ?_⟩
  · have hl : (s.UpdateRecord t v' r').latest t
        = some (latestAux { Token := t, VersionNum := v', Rec := r' } (s.tokenEntries t)) := by
      unfold CacheState.latest
      rw [hte]
    unfold CacheState.Record
    rw [hl, latestAux_fresh (s.tokenEntries t) { Token := t, VersionNum := v', Rec := r' } hfresh]
  · unfold CacheState.RecordVersion at hold ⊢
    rw [hent, List.find?_cons_of_neg _ (by simp [hne'])]
    exact hold
  · unfold CacheState.RecordVersion
    rw [hent, List.find?_cons_of_pos _ (by simp)]

theorem update_record_preserves_history_witness :
    ((1 : Nat) ≠ 2
      ∧ (∀ e ∈ cacheSampleOneVersion.tokenEntries "abc", e.VersionNum < 2)
      ∧ cacheSampleOneVersion.RecordVersion "abc" 1 = .ok recV1)
    ∧ ((cacheSampleOneVersion.UpdateRecord "abc" 2 recV2).Record "abc" = .ok recV2
      ∧ (cacheSampleOneVersion.UpdateRecord "abc" 2 recV2).RecordVersion "abc" 1 = .ok recV1
      ∧ (cacheSampleOneVersion.UpdateRecord "abc" 2 recV2).RecordVersion "abc" 2 = .ok recV2) :=
  ⟨⟨by decide, by decide, by decide⟩,
   update_record_preserves_history cacheSampleOneVersion "abc" 1 2 recV1 recV2
     (by decide) (by decide) (by decide)⟩

theorem runStoreOps_append (a b : List StoreOp) :
    ∀ l : Leveldb, runStoreOps l (a ++ b) = runStoreOps (runStoreOps l a) b := by
  induction a with
  | nil => intro l; rfl
  | cons op rest ih =>
    intro l
    simp only [List.cons_append, runStoreOps]
    exact ih _

theorem runStoreOp_shutdown (l : Leveldb) (op : StoreOp) (hl : l.shutdown = true) :
    (runStoreOp l op).1.shutdown = true
    ∧ (isDataOp op = true →
        (runStoreOp l op).1 = l ∧ (runStoreOp l op).2 = .error .errShutdown) := by
  cases op <;>
    simp [runStoreOp, Leveldb.Put, Leveldb.Get, Leveldb.Has, Leveldb.GetAll,
      Leveldb.GetSnapshot, Leveldb.Close, isDataOp, hl, Except.map]

theorem allShutdownRejected_of_shutdown :
    ∀ (ops : List StoreOp) (l : Leveldb), l.shutdown = true →
      allShutdownRejected l ops = true
  | [], _, _ => rfl
  | op :: rest, l, hl => by
    obtain ⟨hsh, hdata⟩ := runStoreOp_shutdown l op hl
    simp only [allShutdownRejected, Bool.and_eq_true]
    refine ⟨⟨?_, hsh⟩, allShutdownRejected_of_shutdown rest _ hsh⟩
    by_cases hop : isDataOp op = true
    · obtain ⟨h1, h2⟩ := hdata hop
      simp [hop, h1, h2]
    · simp [Bool.of_not_eq_true hop]

/-- C4: in every operation sequence that contains a `Close`, every
data operation started afterwards (`Put`, `Get`, `Has`, `GetAll`,
`Snapshot`) returns `ErrShutdown` while leaving the backend state
untouched, and the shutdown flag, once set, stays set after every
subsequent step. -/
theorem ops_after_close_return_shutdown (l : Leveldb)
    (pre post : List StoreOp) :
    allShutdownRejected (runStoreOps l (pre ++ [StoreOp.close])) post = true
    ∧ (runStoreOps l (pre ++ [StoreOp.close])).shutdown = true := by
  have hsh : (runStoreOps l (pre ++ [StoreOp.close])).shutdown = true := by
    rw [runStoreOps_append]
    rfl
  exact ⟨allShutdownRejected_of_shutdown post _ hsh, hsh⟩

/-- C1 (amended): on a live store, the embedded leveldb backend obeys
the bootstrap state machine — an absent marker is freshly written
(sealed once explicitly and once by `Put`) and `Open` succeeds; a
marker whose ciphertext cannot be opened yields
`ErrWrongEncryptionKey`; a decrypted marker with embedded version
other than `DatabaseVersion` yields `ErrWrongVersion`; otherwise
`Open` succeeds.  The SQL backend only writes a fresh marker when the
marker is absent: a decryption failure propagates the raw decrypt
error (not `ErrWrongEncryptionKey`), and a marker that decrypts is
accepted whatever its embedded version (no `ErrWrongVersion` check). -/
theorem leveldb_cockroach_open_bootstrap :
    (∀ (l : Leveldb) (now : Int), l.shutdown = false →
      (getKV DatabaseVersionKey l.userdb = none →
        l.Open now = .ok { l with
          userdb := setKV DatabaseVersionKey
            (Blob.sealed DatabaseVersion l.encryptionKey.Key
              (Blob.sealed DatabaseVersion l.encryptionKey.Key
                (EncodeVersion { Version := DatabaseVersion, Time := now })))
            l.userdb })
      ∧ (∀ b e, getKV DatabaseVersionKey l.userdb = some b →
          Decrypt l.encryptionKey.Key b = .error e →
          l.Open now = .error .errWrongEncryptionKey)
      ∧ (∀ b p v, getKV DatabaseVersionKey l.userdb = some b →
          Decrypt l.encryptionKey.Key b = .ok (p, v) →
          (∀ e2, Decrypt l.encryptionKey.Key p = .error e2 →
            l.Open now = .error .errWrongEncryptionKey)
          ∧ (∀ p2 v2, Decrypt l.encryptionKey.Key p = .ok (p2, v2) →
              (v2 = DatabaseVersion → l.Open now = .ok l)
              ∧ (v2 ≠ DatabaseVersion → l.Open now = .error .errWrongVersion))))
    ∧ (∀ (c : Cockroachdb) (now : Int), c.shutdown = false →
      (getKV DatabaseVersionKey c.keyValue = none →
        c.Open now = .ok { c with
          keyValue := setKV DatabaseVersionKey
            (Blob.sealed DatabaseVersion c.encryptionKey.Key
              (EncodeVersion { Version := DatabaseVersion, Time := now }))
            c.keyValue })
      ∧ (∀ b e, getKV DatabaseVersionKey c.keyValue = some b →
          Decrypt c.encryptionKey.Key b = .error e → c.Open now = .error e)
      ∧ (∀ b pr, getKV DatabaseVersionKey c.keyValue = some b →
          Decrypt c.encryptionKey.Key b = .ok pr → c.Open now = .ok c)) := by
  constructor
  · intro l now h
    refine ⟨?_, ?_, ?_⟩
    · intro hk
      simp [Leveldb.Open, Leveldb.Get, Leveldb.Put, h, hk, Encrypt]
    · intro b e hk hd
      have he : e = .errDecrypt := Decrypt_error_elim _ _ _ hd
      subst he
      simp [Leveldb.Open, Leveldb.Get, h, hk, hd,
        show Decrypt l.encryptionKey.Key (Blob.bytes []) = .error .errDecrypt from rfl]
    · intro b p v hk hd
      constructor
      · intro e2 hd2
        simp [Leveldb.Open, Leveldb.Get, h, hk, hd, hd2]
      · intro p2 v2 hd2
        constructor
        · intro hv
          simp [Leveldb.Open, Leveldb.Get, h, hk, hd, hd2, hv]
        · intro hv
          simp [Leveldb.Open, Leveldb.Get, h, hk, hd, hd2, hv]
  · intro c now h
    refine ⟨?_, ?_, ?_⟩
    · intro hk
      simp [Cockroachdb.Open, Cockroachdb.Get, Cockroachdb.Put, h, hk, Encrypt]
    · intro b e hk hd
      have he : e = .errDecrypt := Decrypt_error_elim _ _ _ hd
      subst he
      simp [Cockroachdb.Open, Cockroachdb.Get, h, hk, hd]
    · intro b pr hk hd
      simp [Cockroachdb.Open, Cockroachdb.Get, h, hk, hd]

theorem leveldb_cockroach_open_bootstrap_witness :
    Leveldb.Open ldbFreshStore 7 = .ok { ldbFreshStore with
      userdb := setKV DatabaseVersionKey
        (Blob.sealed DatabaseVersion ldbFreshStore.encryptionKey.Key
          (Blob.sealed DatabaseVersion ldbFreshStore.encryptionKey.Key
            (EncodeVersion { Version := DatabaseVersion, Time := 7 })))
        ldbFreshStore.userdb }
    ∧ Cockroachdb.Open cdbFreshStore 7 = .ok { cdbFreshStore with
        keyValue := setKV DatabaseVersionKey
          (Blob.sealed DatabaseVersion cdbFreshStore.encryptionKey.Key
            (EncodeVersion { Version := DatabaseVersion, Time := 7 }))
          cdbFreshStore.keyValue } :=
  ⟨(leveldb_cockroach_open_bootstrap.1 ldbFreshStore 7 rfl).1 rfl,
   (leveldb_cockroach_open_bootstrap.2 cdbFreshStore 7 rfl).1 rfl⟩

/-- C1 (counterexample): the SQL backend's `Open` does not follow the
claimed bootstrap state machine.  A present marker that decrypts with
embedded version 2 ≠ `DatabaseVersion` is accepted (`Open` succeeds
instead of failing with `ErrWrongVersion`), and a marker sealed under
a different key makes `Open` return the raw decrypt error rather than
`ErrWrongEncryptionKey`. -/
theorem cockroachdb_open_skips_version_check :
    Cockroachdb.Open cdbWrongVersionStore 0 = .ok cdbWrongVersionStore
    ∧ (2 : Nat) ≠ DatabaseVersion
    ∧ Cockroachdb.Open cdbWrongVersionStore 0 ≠ .error DBError.errWrongVersion
    ∧ Cockroachdb.Open cdbWrongKeyStore 0 = .error DBError.errDecrypt
    ∧ Cockroachdb.Open cdbWrongKeyStore 0 ≠ .error DBError.errWrongEncryptionKey := by
  refine ⟨by decide, by decide, by decide, by decide, by decide⟩
